import Mathlib

/-!
Verification of the Orchid agent-orchestration core against its specification.

The development shallowly embeds the relevant components of the repository:

* `ImplementorAgentImpl` (the Agent Lifecycle Manager) from the source file
  defining the implementor agent: its `start`, `stop`, and `cleanup` sequences
  are embedded as pure functions over an environment `LcEnv` recording the
  outcome of every external-provider call, producing a trace of issued calls.
* `ReviewAgent` (the Completion Monitor): its polling loop `monitorForIdle`,
  the idle check `checkSessionIdle`, the abort-aware `delay`, and
  `stopMonitoring` are embedded with a discrete time model in which a status
  query takes no time and each sleep advances time by the poll interval.
* `OpencodeSessionManager.removeSession` from
  `src/opencode/agents/reviewer/index.ts`, embedded over an association list
  mirroring the JS `Map` of tracked sessions.
* The `AgentOrchestrator` reconciliation pass.  Its implementation file
  `src/agent-orchestrator.ts` is absent from the repository snapshot (only its
  test suite is present), so the pass is modelled from the spec, as marked on
  the definitions below.
-/

/-! ## Agent Lifecycle Manager (ImplementorAgentImpl) -/

/-- One observable call issued by the implementor agent to an external
collaborator, or one report through its callbacks. -/
inductive LcEvent where
  | worktreeCreate
  | sessionCreate
  | sendMessage
  | assignCall
  | sessionRemove
  | unassignCall
  | worktreeRemove
  | onErrorReport (msg : String)
  | onCompleteReport
deriving DecidableEq, Repr

/-- Outcomes of the external providers during one lifecycle episode: whether
each call succeeds, the failure message when it fails, and the session id the
session provider would assign. -/
structure LcEnv where
  worktreeCreateOk : Bool
  worktreeCreateErr : String
  sessionCreateOk : Bool
  sessionCreateErr : String
  sessionId : String
  sendMessageOk : Bool
  sendMessageErr : String
  assignOk : Bool
  sessionRemoveOk : Bool
  sessionRemoveErr : String
  unassignOk : Bool
  worktreeRemoveOk : Bool
  worktreeRemoveErr : String
deriving DecidableEq, Repr

/-- Mutable state of one `ImplementorAgentImpl`: the `_isRunning` flag and the
`session` field (the id of the created session, if any). -/
structure LcState where
  isRunning : Bool
  session : Option String
deriving DecidableEq, Repr

abbrev Trace := List LcEvent

/-- Embedding of the private `createWorktree` method: calls the worktree
manager and on failure throws an error wrapping the cause. -/
def createWorktreeStep (env : LcEnv) : Trace × Option String :=
  if env.worktreeCreateOk then ([.worktreeCreate], none)
  else ([.worktreeCreate], some ("Failed to create worktree: " ++ env.worktreeCreateErr))

/-- Embedding of the private `createSession` method: calls the session
manager; on success records the session in the agent state; on failure removes
the worktree and throws an error wrapping the cause (when that compensating
removal itself rejects, its own error propagates instead, as in the source). -/
def createSessionStep (env : LcEnv) (st : LcState) : Trace × LcState × Option String :=
  if env.sessionCreateOk then
    ([.sessionCreate], { st with session := some env.sessionId }, none)
  else if env.worktreeRemoveOk then
    ([.sessionCreate, .worktreeRemove], st,
      some ("Failed to create session: " ++ env.sessionCreateErr))
  else
    ([.sessionCreate, .worktreeRemove], st, some env.worktreeRemoveErr)

/-- Embedding of the private `sendInitialPrompt` method: requires a session,
sends the initial instruction; on failure removes the session, then the
worktree, then throws an error wrapping the cause (a rejection of either
compensating removal propagates instead, skipping what follows it, as in the
source). -/
def sendInitialPromptStep (env : LcEnv) (st : LcState) : Trace × Option String :=
  match st.session with
  | none => ([], some "Cannot send prompt: no session")
  | some _ =>
    if env.sendMessageOk then ([.sendMessage], none)
    else if env.sessionRemoveOk then
      if env.worktreeRemoveOk then
        ([.sendMessage, .sessionRemove, .worktreeRemove],
          some ("Failed to send initial prompt: " ++ env.sendMessageErr))
      else
        ([.sendMessage, .sessionRemove, .worktreeRemove], some env.worktreeRemoveErr)
    else
      ([.sendMessage, .sessionRemove], some env.sessionRemoveErr)

/-- Embedding of the private `assignTask` method: the call is issued and any
failure is logged and swallowed. -/
def assignTaskStep (_env : LcEnv) : Trace :=
  [.assignCall]

/-- Embedding of the private `cleanup` method: removes the session when one is
recorded, unassigns the task, removes the worktree; each step is wrapped in
its own try/catch, so every step is attempted and no failure escapes. -/
def cleanup (_env : LcEnv) (st : LcState) : Trace :=
  (if st.session.isSome then [.sessionRemove] else []) ++ [.unassignCall, .worktreeRemove]

/-- The `try` block of `start`: worktree, then session, then initial prompt,
then assignment, stopping at the first thrown error. -/
def startBody (env : LcEnv) (st : LcState) : Trace × LcState × Option String :=
  let (t1, e1) := createWorktreeStep env
  match e1 with
  | some err => (t1, st, some err)
  | none =>
    let (t2, st2, e2) := createSessionStep env st
    match e2 with
    | some err => (t1 ++ t2, st2, some err)
    | none =>
      let (t3, e3) := sendInitialPromptStep env st2
      match e3 with
      | some err => (t1 ++ t2 ++ t3, st2, some err)
      | none => (t1 ++ t2 ++ t3 ++ assignTaskStep env, st2, none)

/-- Result of one call to `start` or `stop`: the trace of issued calls and
callback reports, the agent state afterwards, and the error propagated to the
caller, if any. -/
structure LcResult where
  trace : Trace
  state : LcState
  thrown : Option String
deriving DecidableEq, Repr

/-- Embedding of `ImplementorAgentImpl.start`: a no-op when already running;
otherwise sets `_isRunning`, runs the four steps, and on any thrown error runs
`cleanup`, clears `_isRunning`, and reports the error through the `onError`
callback — the returned promise itself always resolves. -/
def startRun (env : LcEnv) (st : LcState) : LcResult :=
  if st.isRunning then ⟨[], st, none⟩
  else
    let st1 := { st with isRunning := true }
    match startBody env st1 with
    | (t, st2, none) => ⟨t, st2, none⟩
    | (t, st2, some err) =>
      ⟨t ++ cleanup env st2 ++ [.onErrorReport err], { st2 with isRunning := false }, none⟩

/-- Embedding of `ImplementorAgentImpl.stop`: a no-op when not running;
otherwise runs `cleanup` and clears `_isRunning`.  No step failure is raised
to the caller. -/
def stopRun (env : LcEnv) (st : LcState) : LcResult :=
  if st.isRunning then ⟨cleanup env st, { st with isRunning := false }, none⟩
  else ⟨[], st, none⟩

/-- `startOk` as the orchestrator observes it: the lifecycle start succeeds
exactly when worktree creation, session creation, and the initial prompt all
succeed. -/
def lcStartOk (env : LcEnv) : Bool :=
  env.worktreeCreateOk && env.sessionCreateOk && env.sendMessageOk

/-- An event satisfying `p` occurs in the trace strictly before an event
satisfying `q`. -/
def eventBefore (t : Trace) (p q : LcEvent → Bool) : Prop :=
  ∃ i j : Nat, i < j ∧ t[i]?.any p = true ∧ t[j]?.any q = true

/-- An event satisfying `p`, then one satisfying `q`, then one satisfying `r`
occur in the trace, in that order. -/
def eventChain3 (t : Trace) (p q r : LcEvent → Bool) : Prop :=
  ∃ i j k : Nat, i < j ∧ j < k ∧
    t[i]?.any p = true ∧ t[j]?.any q = true ∧ t[k]?.any r = true

/-- Recognizes an `onError` callback report. -/
def isErrorReport : LcEvent → Bool
  | .onErrorReport _ => true
  | _ => false

/-! ## Completion Monitor (ReviewAgent) -/

/-- Status of a tracked session, as in the `AgentSession` record. -/
inductive SessionStatus where
  | running
  | stopping
  | stopped
deriving DecidableEq, Repr

/-- What one `getAllSessions` query reveals about a session. -/
structure SessionView where
  sessionId : String
  status : SessionStatus
deriving DecidableEq, Repr

/-- Embedding of `ReviewAgent.checkSessionIdle`: a rejected query is logged
and treated as not idle; a session absent from the live set is treated as
stopped, hence idle; otherwise the session is idle exactly when its status is
`stopped`. -/
def checkSessionIdle (query : Except String (List SessionView)) (sessionId : String) : Bool :=
  match query with
  | .error _ => false
  | .ok sessions =>
    match sessions.find? (fun s => s.sessionId == sessionId) with
    | none => true
    | some s => s.status == .stopped

/-- How one invocation of the polling loop ended. -/
inductive MonitorOutcome where
  | idleDetected
  | timedOut
  | aborted
deriving DecidableEq, Repr

/-- Result of the polling loop: how it ended, the elapsed milliseconds at that
point, whether the review (completion) callback was invoked, and the set of
monitored session ids afterwards. -/
structure MonitorResult where
  outcome : MonitorOutcome
  stoppedAt : Nat
  callbackInvoked : Bool
  monitorsAfter : List String
deriving DecidableEq, Repr

/-- Embedding of `ReviewAgent.monitorForIdle` under a discrete time model: a
status query takes no time and each inter-poll sleep advances elapsed time by
`pollMs`.  `idleAt n` is the value of `checkSessionIdle` at the tick occurring
`n` ms after the loop started, `abortedAt n` whether the abort signal has
fired by then.  On timeout and on idle detection the loop deletes the
session's abort-controller handle; the idle branch additionally invokes the
review callback.  An exit observed through the abort signal leaves the handle
map alone (in the source, `stopMonitoring` has already deleted the handle).
`fuel` bounds the number of iterations; `none` means the fuel ran out. -/
def monitorForIdle (timeoutMs pollMs : Nat) (idleAt abortedAt : Nat → Bool)
    (sessionId : String) (monitors : List String) (elapsed fuel : Nat) :
    Option MonitorResult :=
  match fuel with
  | 0 => none
  | fuel + 1 =>
    if abortedAt elapsed then some ⟨.aborted, elapsed, false, monitors⟩
    else if timeoutMs < elapsed then
      some ⟨.timedOut, elapsed, false, monitors.erase sessionId⟩
    else if idleAt elapsed then
      some ⟨.idleDetected, elapsed, true, monitors.erase sessionId⟩
    else monitorForIdle timeoutMs pollMs idleAt abortedAt sessionId monitors
      (elapsed + pollMs) fuel

/-- The monitored-session map of a `ReviewAgent`: the keys of its
`abortControllers` map. -/
def isMonitoring (monitors : List String) (sessionId : String) : Bool :=
  monitors.contains sessionId

/-- Embedding of `ReviewAgent.stopMonitoring`: when a handle exists for the
session it is aborted and deleted, otherwise nothing happens.  The method is
synchronous and total — it never raises to its caller. -/
def stopMonitoring (monitors : List String) (sessionId : String) : List String :=
  if monitors.contains sessionId then monitors.erase sessionId else monitors

/-- Embedding of `ReviewAgent.delay`: resolves after `ms` milliseconds unless
the abort signal fires first; `abortAfter = some a` means the signal fires `a`
ms after the sleep begins.  Returns the time at which the promise settles and
whether it settled by abort-rejection. -/
def delayRun (ms : Nat) (abortAfter : Option Nat) : Nat × Bool :=
  match abortAfter with
  | some a => if a < ms then (a, true) else (ms, false)
  | none => (ms, false)

/-! ## Session manager (`OpencodeSessionManager.removeSession`) -/

/-- A tracked session record, keyed by task id in the manager's map. -/
structure TrackedSession where
  sessionId : String
  workingDirectory : String
  status : SessionStatus
deriving DecidableEq, Repr

/-- The manager's `sessions` map, embedded as an association list from task id
to session record; `createSession` refuses duplicate task ids, so the keys are
pairwise distinct. -/
abbrev SessionMap := List (String × TrackedSession)

/-- Embedding of `OpencodeSessionManager.removeSession`: when no session is
tracked for the task id it throws and leaves the map alone; otherwise it marks
the session stopping, issues the backend delete (whose failure is logged and
swallowed — `deleteOk` plays no role in the result), and removes the entry
from the map.  The returned flag records whether the backend delete call was
issued. -/
def removeSession (_deleteOk : Bool) (sessions : SessionMap) (taskId : String) :
    Except String (SessionMap × Bool) :=
  match sessions.lookup taskId with
  | none => .error ("Session for task " ++ taskId ++ " not found")
  | some _ => .ok (sessions.eraseP (fun p => p.1 == taskId), true)

/-- `getSession`, embedded: lookup in the map. -/
def getSession (sessions : SessionMap) (taskId : String) : Option TrackedSession :=
  sessions.lookup taskId

/-- `hasSession`, embedded: key membership in the map. -/
def hasSession (sessions : SessionMap) (taskId : String) : Bool :=
  (sessions.lookup taskId).isSome

/-! ## Orchestrator reconciliation (modelled from the spec)

The implementation file `src/agent-orchestrator.ts` is not in the repository
snapshot — only its test suite is — so the reconciliation pass is modelled
from the specification, §4.1. -/

/-- An open task as delivered in a Task-Source snapshot. -/
structure OTask where
  id : String
  title : String
  description : String
deriving DecidableEq, Repr

/-- A RunningAgent entry, owned by the orchestrator. -/
structure RunningAgent where
  taskId : String
  agentId : String
  status : String
  worktreePath : String
deriving DecidableEq, Repr

/-- Modelled from the spec: the RunningAgent the orchestrator registers when a
start succeeds — agent id `<taskId>-implementor`, status `running`, worktree
path `<worktrees-root>/<taskId>`. -/
def mkRunningAgent (worktreesDir taskId : String) : RunningAgent :=
  ⟨taskId, taskId ++ "-implementor", "running", worktreesDir ++ "/" ++ taskId⟩

/-- Modelled from the spec: the RunningAgent set after step 1 of a
reconciliation pass.  Every task in the snapshot with no existing RunningAgent
gets a lifecycle `start` call; on success — `startOk` is the oracle for the
lifecycle outcome — a RunningAgent with status `running` is registered, on
failure nothing is registered and the task is left for the next snapshot.
Tasks that already have an agent are left untouched. -/
def startAgents (worktreesDir : String) (startOk : String → Bool)
    (agents : List RunningAgent) : List OTask → List RunningAgent
  | [] => agents
  | t :: ts =>
    if agents.any (fun a => a.taskId == t.id) then
      startAgents worktreesDir startOk agents ts
    else
      startAgents worktreesDir startOk
        (if startOk t.id then agents ++ [mkRunningAgent worktreesDir t.id] else agents) ts

/-- Modelled from the spec: the task ids for which step 1 of a reconciliation
pass issues a lifecycle `start` call — exactly the snapshot tasks with no
RunningAgent at the moment they are processed, whether or not the start then
succeeds. -/
def startCallsOf (worktreesDir : String) (startOk : String → Bool)
    (agents : List RunningAgent) : List OTask → List String
  | [] => []
  | t :: ts =>
    if agents.any (fun a => a.taskId == t.id) then
      startCallsOf worktreesDir startOk agents ts
    else
      t.id :: startCallsOf worktreesDir startOk
        (if startOk t.id then agents ++ [mkRunningAgent worktreesDir t.id] else agents) ts

/-- Modelled from the spec: the RunningAgent set after step 2 of a
reconciliation pass — every RunningAgent whose task id is absent from the
snapshot is removed, regardless of the outcome of its `stop` call. -/
def stopAgents (snapshot : List OTask) (agents : List RunningAgent) :
    List RunningAgent :=
  agents.filter (fun a => snapshot.any (fun t => t.id == a.taskId))

/-- Modelled from the spec: the task ids for which step 2 of a reconciliation
pass issues a lifecycle `stop` call — the running agents absent from the
snapshot. -/
def stopCallsOf (snapshot : List OTask) (agents : List RunningAgent) :
    List String :=
  (agents.filter (fun a => !snapshot.any (fun t => t.id == a.taskId))).map
    (fun a => a.taskId)

/-- Modelled from the spec: one reconciliation pass over a snapshot — start
phase, then stop phase.  Returns the RunningAgent set afterwards, the task ids
for which a start was issued, and the task ids for which a stop was issued.
The stop-outcome oracle `stopOk` is deliberately never consulted for removal:
a RunningAgent is removed regardless of its stop outcome. -/
def reconcile (worktreesDir : String) (startOk : String → Bool)
    (_stopOk : String → Bool) (agents : List RunningAgent)
    (snapshot : List OTask) : List RunningAgent × List String × List String :=
  let ag1 := startAgents worktreesDir startOk agents snapshot
  (stopAgents snapshot ag1, startCallsOf worktreesDir startOk agents snapshot,
    stopCallsOf snapshot ag1)

/-- The at-most-one-agent-per-task property of a RunningAgent collection. -/
def AtMostOnePerTask (agents : List RunningAgent) : Prop :=
  ∀ tid : String, agents.countP (fun a => a.taskId == tid) ≤ 1

/-! ## Concrete fixtures used by witnesses and counterexamples -/

/-- An environment in which every provider call succeeds. -/
def envAllOk : LcEnv :=
  { worktreeCreateOk := true, worktreeCreateErr := "", sessionCreateOk := true,
    sessionCreateErr := "", sessionId := "sid", sendMessageOk := true,
    sendMessageErr := "", assignOk := true, sessionRemoveOk := true,
    sessionRemoveErr := "", unassignOk := true, worktreeRemoveOk := true,
    worktreeRemoveErr := "" }

/-- An environment in which session creation fails. -/
def envSessionFail : LcEnv :=
  { envAllOk with sessionCreateOk := false, sessionCreateErr := "boom" }

/-- An environment in which sending the initial instruction fails. -/
def envPromptFail : LcEnv :=
  { envAllOk with sendMessageOk := false, sendMessageErr := "send failed" }

/-- An environment in which worktree removal fails. -/
def envRemoveFail : LcEnv :=
  { envAllOk with worktreeRemoveOk := false, worktreeRemoveErr := "rm failed" }

/-- A freshly constructed implementor agent: not running, no session. -/
def freshState : LcState := ⟨false, none⟩

/-- A sample open task. -/
def task1 : OTask := ⟨"t1", "Test", ""⟩

/-- The oracle under which every lifecycle call succeeds. -/
def oracleTrue : String → Bool := fun _ => true

/-- The oracle under which every lifecycle call fails. -/
def oracleFalse : String → Bool := fun _ => false

/-! ## Theorems: Agent Lifecycle Manager -/

/-- C3 counterexample: at a concrete input where session creation fails, the
embedded `start` resolves without propagating any error to its caller (its
`thrown` component is `none`), and instead the failure — wrapping the failing
step's cause — is delivered through the `onError` callback.  This refutes the
claim that `start` fails (propagates to its caller) with a `LifecycleError`;
no such propagation happens, and no `LifecycleError` type exists in the
repository. -/
theorem start_failure_not_propagated_cex :
    (startRun envSessionFail freshState).thrown = none ∧
    LcEvent.onErrorReport ("Failed to create session: " ++ "boom") ∈
      (startRun envSessionFail freshState).trace := by
  decide

/-- C3 (amended): whatever the provider outcomes, `start` on a not-yet-running
agent never propagates an error to its caller; on success of all steps it
records the created session (available via `getSession`) and reports no
error; on the first failing step it runs cleanup and reports, through the
`onError` callback, an error whose message wraps that step's cause — except
that when a compensating removal inside the failure handler itself rejects,
that removal's own error is what `onError` receives, exactly as in the
source. -/
theorem start_reports_failure_via_callback (env : LcEnv) (st : LcState)
    (h : st.isRunning = false) :
    (startRun env st).thrown = none ∧
    (env.worktreeCreateOk = true → env.sessionCreateOk = true →
      env.sendMessageOk = true →
      (startRun env st).state.session = some env.sessionId ∧
      ∀ m, LcEvent.onErrorReport m ∉ (startRun env st).trace) ∧
    (env.worktreeCreateOk = false →
      LcEvent.onErrorReport ("Failed to create worktree: " ++ env.worktreeCreateErr) ∈
        (startRun env st).trace) ∧
    (env.worktreeCreateOk = true → env.sessionCreateOk = false →
      (env.worktreeRemoveOk = true →
        LcEvent.onErrorReport ("Failed to create session: " ++ env.sessionCreateErr) ∈
          (startRun env st).trace) ∧
      (env.worktreeRemoveOk = false →
        LcEvent.onErrorReport env.worktreeRemoveErr ∈ (startRun env st).trace)) ∧
    (env.worktreeCreateOk = true → env.sessionCreateOk = true →
      env.sendMessageOk = false →
      (env.sessionRemoveOk = true → env.worktreeRemoveOk = true →
        LcEvent.onErrorReport ("Failed to send initial prompt: " ++ env.sendMessageErr) ∈
          (startRun env st).trace) ∧
      (env.sessionRemoveOk = false →
        LcEvent.onErrorReport env.sessionRemoveErr ∈ (startRun env st).trace) ∧
      (env.sessionRemoveOk = true → env.worktreeRemoveOk = false →
        LcEvent.onErrorReport env.worktreeRemoveErr ∈ (startRun env st).trace)) := by
  obtain ⟨wc, wce, sc, sce, sid, sm, sme, aok, srok, sre, uok, wrok, wre⟩ := env
  cases wc <;> cases sc <;> cases sm <;> cases srok <;> cases wrok <;>
    simp [startRun, startBody, createWorktreeStep, createSessionStep,
      sendInitialPromptStep, assignTaskStep, cleanup, h]

/-- C3 witness: the amended theorem applied to the all-success environment and
a fresh agent state, and, for the exception clause, to a session-creation
failure whose compensating worktree removal itself rejects — the removal's own
error reaches `onError`. -/
theorem start_reports_failure_via_callback_witness :
    (startRun envAllOk freshState).thrown = none ∧
    (startRun envAllOk freshState).state.session = some "sid" ∧
    LcEvent.onErrorReport "rm failed" ∈
      (startRun
        { envSessionFail with
            worktreeRemoveOk := false, worktreeRemoveErr := "rm failed" }
        freshState).trace :=
  ⟨(start_reports_failure_via_callback envAllOk freshState rfl).1,
   ((start_reports_failure_via_callback envAllOk freshState rfl).2.1
      rfl rfl rfl).1,
   ((start_reports_failure_via_callback
      { envSessionFail with
          worktreeRemoveOk := false, worktreeRemoveErr := "rm failed" }
      freshState rfl).2.2.2.1 rfl rfl).2 rfl⟩

/-- C4: when worktree creation succeeds and session creation then fails, the
worktree-removal call is issued strictly before the error is reported through
`onError`, the agent records no session, and — in the spec-modelled
orchestrator, whose start oracle reflects the failed lifecycle — no
RunningAgent is registered for the task. -/
theorem start_compensates_failed_session_creation (env : LcEnv) (st : LcState)
    (dir : String) (stopOk : String → Bool) (task : OTask)
    (h : st.isRunning = false) (hs : st.session = none)
    (hwc : env.worktreeCreateOk = true) (hsc : env.sessionCreateOk = false) :
    eventBefore (startRun env st).trace (fun e => e == .worktreeRemove)
      isErrorReport ∧
    (startRun env st).state.session = none ∧
    (reconcile dir (fun _ => lcStartOk env) stopOk [] [task]).1 = [] := by
  obtain ⟨wc, wce, sc, sce, sid, sm, sme, aok, srok, sre, uok, wrok, wre⟩ := env
  simp only at hwc hsc
  subst hwc hsc
  refine ⟨?_, ?_, ?_⟩
  · cases wrok <;>
      · simp only [startRun, startBody, createWorktreeStep, createSessionStep,
          cleanup, h, hs, if_true, if_false, Bool.false_eq_true, ite_false,
          ite_true, Option.isSome_none]
        exact ⟨2, 5, by omega, rfl, rfl⟩
  · cases wrok <;>
      simp [startRun, startBody, createWorktreeStep, createSessionStep, cleanup, h, hs]
  · simp [reconcile, startAgents, stopAgents, lcStartOk]

/-- C4 witness: the theorem applied to the session-creation-failure
environment, a fresh agent, and the sample task. -/
theorem start_compensates_failed_session_creation_witness :
    eventBefore (startRun envSessionFail freshState).trace
      (fun e => e == .worktreeRemove) isErrorReport ∧
    (startRun envSessionFail freshState).state.session = none ∧
    (reconcile "/w" (fun _ => lcStartOk envSessionFail) oracleTrue [] [task1]).1 = [] :=
  start_compensates_failed_session_creation envSessionFail freshState "/w"
    oracleTrue task1 rfl rfl rfl rfl

/-- C5: when worktree and session creation succeed and the initial instruction
fails to send, the trace of `start` contains a session-removal call, then a
worktree-removal call, then the error report, in that order — the session and
workspace are removed, session first, before the error is reported. -/
theorem start_removes_session_then_worktree_on_prompt_failure (env : LcEnv)
    (st : LcState) (h : st.isRunning = false)
    (hwc : env.worktreeCreateOk = true) (hsc : env.sessionCreateOk = true)
    (hsm : env.sendMessageOk = false) :
    eventChain3 (startRun env st).trace (fun e => e == .sessionRemove)
      (fun e => e == .worktreeRemove) isErrorReport := by
  obtain ⟨wc, wce, sc, sce, sid, sm, sme, aok, srok, sre, uok, wrok, wre⟩ := env
  simp only at hwc hsc hsm
  subst hwc hsc hsm
  unfold eventChain3
  cases srok <;> cases wrok
  · refine ⟨3, 6, 7, by omega, by omega, ?_, ?_, ?_⟩ <;>
      simp [startRun, startBody, createWorktreeStep, createSessionStep,
        sendInitialPromptStep, cleanup, isErrorReport, h]
  · refine ⟨3, 6, 7, by omega, by omega, ?_, ?_, ?_⟩ <;>
      simp [startRun, startBody, createWorktreeStep, createSessionStep,
        sendInitialPromptStep, cleanup, isErrorReport, h]
  · refine ⟨3, 4, 8, by omega, by omega, ?_, ?_, ?_⟩ <;>
      simp [startRun, startBody, createWorktreeStep, createSessionStep,
        sendInitialPromptStep, cleanup, isErrorReport, h]
  · refine ⟨3, 4, 8, by omega, by omega, ?_, ?_, ?_⟩ <;>
      simp [startRun, startBody, createWorktreeStep, createSessionStep,
        sendInitialPromptStep, cleanup, isErrorReport, h]

/-- C5 witness: the theorem applied to the prompt-failure environment and a
fresh agent. -/
theorem start_removes_session_then_worktree_on_prompt_failure_witness :
    eventChain3 (startRun envPromptFail freshState).trace
      (fun e => e == .sessionRemove) (fun e => e == .worktreeRemove)
      isErrorReport :=
  start_removes_session_then_worktree_on_prompt_failure envPromptFail
    freshState rfl rfl rfl rfl

/-- C6: for a running agent with a session, `stop` raises nothing to its
caller, its cleanup attempts all three steps — session removal, task
unassignment, worktree removal — whatever the individual outcomes (the
environment is unconstrained, so this covers a failing worktree removal), and
the agent is left not running.  In the spec-modelled orchestrator a
RunningAgent absent from the snapshot is removed and its stop call issued even
when every stop fails. -/
theorem stop_attempts_all_cleanup_steps (env : LcEnv) (st : LcState)
    (dir : String) (startOk : String → Bool) (agents : List RunningAgent)
    (h : st.isRunning = true) (hs : st.session.isSome = true) :
    (stopRun env st).thrown = none ∧
    LcEvent.sessionRemove ∈ (stopRun env st).trace ∧
    LcEvent.unassignCall ∈ (stopRun env st).trace ∧
    LcEvent.worktreeRemove ∈ (stopRun env st).trace ∧
    (stopRun env st).state.isRunning = false ∧
    (reconcile dir startOk (fun _ => false) agents []).1 = [] ∧
    (reconcile dir startOk (fun _ => false) agents []).2.2 =
      agents.map (fun a => a.taskId) := by
  refine ⟨?_, ?_, ?_, ?_, ?_, ?_, ?_⟩ <;>
    simp [stopRun, cleanup, reconcile, startAgents, stopAgents, stopCallsOf, h, hs]

/-- C6 witness: the theorem applied to the worktree-removal-failure
environment, a running agent holding a session, and a one-agent orchestrator
state reconciled against the empty snapshot. -/
theorem stop_attempts_all_cleanup_steps_witness :
    (stopRun envRemoveFail ⟨true, some "sid"⟩).thrown = none ∧
    LcEvent.unassignCall ∈ (stopRun envRemoveFail ⟨true, some "sid"⟩).trace ∧
    (reconcile "/w" oracleTrue (fun _ => false) [mkRunningAgent "/w" "t1"] []).1 = [] :=
  ⟨(stop_attempts_all_cleanup_steps envRemoveFail ⟨true, some "sid"⟩ "/w"
      oracleTrue [mkRunningAgent "/w" "t1"] rfl rfl).1,
   (stop_attempts_all_cleanup_steps envRemoveFail ⟨true, some "sid"⟩ "/w"
      oracleTrue [mkRunningAgent "/w" "t1"] rfl rfl).2.2.1,
   (stop_attempts_all_cleanup_steps envRemoveFail ⟨true, some "sid"⟩ "/w"
      oracleTrue [mkRunningAgent "/w" "t1"] rfl rfl).2.2.2.2.2.1⟩

/-! ## Theorems: Completion Monitor -/

/-- When idleness is never detected and the abort signal never fires, the
polling loop exits with a timeout at the first multiple of the poll interval
strictly past the timeout, deleting the monitor handle and invoking no
callback. -/
theorem monitor_timeout_aux (timeout poll : Nat) (idleAt : Nat → Bool)
    (id : String) (monitors : List String)
    (hidle : ∀ n, idleAt n = false) :
    ∀ fuel elapsed, timeout < elapsed + fuel * poll →
      ∃ stoppedAt,
        monitorForIdle timeout poll idleAt (fun _ => false) id monitors elapsed
            (fuel + 1) =
          some ⟨.timedOut, stoppedAt, false, monitors.erase id⟩ ∧
        (elapsed ≤ timeout + poll → stoppedAt ≤ timeout + poll) := by
  intro fuel
  induction fuel with
  | zero =>
    intro elapsed hlt
    simp only [Nat.zero_mul, Nat.add_zero] at hlt
    refine ⟨elapsed, ?_, fun h => h⟩
    rw [monitorForIdle]
    simp [hlt]
  | succ fuel ih =>
    intro elapsed hlt
    by_cases hto : timeout < elapsed
    · refine ⟨elapsed, ?_, fun h => h⟩
      rw [monitorForIdle]
      simp [hto]
    · have hle : elapsed ≤ timeout := Nat.not_lt.mp hto
      obtain ⟨stoppedAt, heq, hbound⟩ := ih (elapsed + poll) (by
        have : (fuel + 1) * poll = poll + fuel * poll := by ring
        omega)
      refine ⟨stoppedAt, ?_, fun _ => hbound (by omega)⟩
      rw [monitorForIdle]
      simp [hto, hidle, heq]

/-- C7: for a session whose status queries never report idle (in particular
one that never stops), the polling loop terminates with a timed-out result at
an elapsed time of at most `timeoutMs + pollIntervalMs`, removes the session's
monitor handle so that `isMonitoring` becomes false, and never invokes the
review (completion) callback. -/
theorem monitor_timeout_bound (timeout poll : Nat)
    (queryAt : Nat → Except String (List SessionView)) (id : String)
    (monitors : List String)
    (hpoll : 0 < poll) (hnd : monitors.Nodup)
    (hidle : ∀ n, checkSessionIdle (queryAt n) id = false) :
    ∃ stoppedAt,
      monitorForIdle timeout poll (fun n => checkSessionIdle (queryAt n) id)
          (fun _ => false) id monitors 0 (timeout / poll + 2) =
        some ⟨.timedOut, stoppedAt, false, monitors.erase id⟩ ∧
      stoppedAt ≤ timeout + poll ∧
      isMonitoring (monitors.erase id) id = false := by
  have hdiv : timeout < 0 + (timeout / poll + 1) * poll := by
    have h1 := Nat.div_add_mod timeout poll
    have h2 := Nat.mod_lt timeout hpoll
    have h3 : (timeout / poll + 1) * poll = poll * (timeout / poll) + poll := by
      ring
    rw [h3]
    omega
  obtain ⟨stoppedAt, heq, hbound⟩ :=
    monitor_timeout_aux timeout poll (fun n => checkSessionIdle (queryAt n) id)
      id monitors hidle (timeout / poll + 1) 0 hdiv
  refine ⟨stoppedAt, heq, hbound (by omega), ?_⟩
  have hne : id ∉ monitors.erase id := hnd.not_mem_erase
  cases hb : (monitors.erase id).contains id
  · exact hb
  · exact absurd (List.elem_iff.mp hb) hne

/-- C7 witness: the theorem applied to a 10 ms timeout, a 5 ms poll interval,
and a query that always fails (hence never reports idle). -/
theorem monitor_timeout_bound_witness :
    ∃ stoppedAt,
      monitorForIdle 10 5
          (fun n => checkSessionIdle ((fun _ => .error "down") n) "s")
          (fun _ => false) "s" ["s"] 0 (10 / 5 + 2) =
        some ⟨.timedOut, stoppedAt, false, (["s"] : List String).erase "s"⟩ ∧
      stoppedAt ≤ 10 + 5 ∧
      isMonitoring ((["s"] : List String).erase "s") "s" = false :=
  monitor_timeout_bound 10 5 (fun _ => .error "down") "s" ["s"]
    (by decide) (by simp) (fun n => rfl)

/-- C8: a failing status query during a polling tick is treated as "not yet
idle": `checkSessionIdle` returns false on a rejected `getAllSessions`, and
the loop iteration at that tick — not aborted, not timed out — reduces to the
next iteration at `elapsed + poll`, with the monitor set unchanged and no
callback or idle result produced by the tick. -/
theorem monitor_query_failure_continues (e : String) (timeout poll : Nat)
    (queryAt : Nat → Except String (List SessionView)) (abortedAt : Nat → Bool)
    (id : String) (monitors : List String) (elapsed fuel : Nat)
    (ha : abortedAt elapsed = false) (ht : elapsed ≤ timeout)
    (hq : queryAt elapsed = .error e) :
    checkSessionIdle (queryAt elapsed) id = false ∧
    monitorForIdle timeout poll (fun n => checkSessionIdle (queryAt n) id)
        abortedAt id monitors elapsed (fuel + 1) =
      monitorForIdle timeout poll (fun n => checkSessionIdle (queryAt n) id)
        abortedAt id monitors (elapsed + poll) fuel := by
  have hidle : checkSessionIdle (queryAt elapsed) id = false := by
    rw [hq]; rfl
  refine ⟨hidle, ?_⟩
  rw [monitorForIdle]
  simp [ha, Nat.not_lt.mpr ht, hidle]

/-- C8 witness: the theorem applied to a network-error query at tick 0 of a
10 ms timeout, 5 ms poll-interval monitor. -/
theorem monitor_query_failure_continues_witness :
    checkSessionIdle ((fun _ => .error "network") 0) "s" = false ∧
    monitorForIdle 10 5
        (fun n => checkSessionIdle ((fun _ => .error "network") n) "s")
        (fun _ => false) "s" ["s"] 0 (2 + 1) =
      monitorForIdle 10 5
        (fun n => checkSessionIdle ((fun _ => .error "network") n) "s")
        (fun _ => false) "s" ["s"] (0 + 5) 2 :=
  monitor_query_failure_continues "network" 10 5 (fun _ => .error "network")
    (fun _ => false) "s" ["s"] 0 2 rfl (by decide) rfl

/-- C9: for a monitored session, `stopMonitoring` synchronously deletes the
handle — `isMonitoring` is false immediately afterwards; for a session that is
not monitored it is a no-op; and the abort-aware sleep settles at the moment
the signal fires rather than waiting out the remaining interval.  The
embedding of `stopMonitoring` is a total function: no path raises to the
caller. -/
theorem stop_monitoring_immediate (monitors : List String) (sessionId : String)
    (a ms : Nat) (hnd : monitors.Nodup) (ha : a < ms) :
    isMonitoring (stopMonitoring monitors sessionId) sessionId = false ∧
    (isMonitoring monitors sessionId = false →
      stopMonitoring monitors sessionId = monitors) ∧
    delayRun ms (some a) = (a, true) := by
  refine ⟨?_, ?_, ?_⟩
  · cases hb : monitors.contains sessionId with
    | false =>
      unfold stopMonitoring isMonitoring
      rw [hb]
      simpa using hb
    | true =>
      have hne : sessionId ∉ monitors.erase sessionId := hnd.not_mem_erase
      have hb2 : (monitors.erase sessionId).contains sessionId = false := by
        cases hb3 : (monitors.erase sessionId).contains sessionId
        · rfl
        · exact absurd (List.elem_iff.mp hb3) hne
      unfold stopMonitoring isMonitoring
      rw [hb]
      simpa using hb2
  · intro hm
    simp only [isMonitoring] at hm
    unfold stopMonitoring
    rw [hm]
    simp
  · simp [delayRun, ha]

/-- C9 witness: the theorem applied to a monitor set containing the session
and an abort firing 2 ms into a 5 ms sleep. -/
theorem stop_monitoring_immediate_witness :
    isMonitoring (stopMonitoring ["s"] "s") "s" = false ∧
    (isMonitoring (["s"] : List String) "s" = false →
      stopMonitoring ["s"] "s" = ["s"]) ∧
    delayRun 5 (some 2) = (2, true) :=
  stop_monitoring_immediate ["s"] "s" 2 5 (by simp) (by decide)

/-! ## Theorems: session manager -/

/-- A key absent from an association list's key list has no lookup result. -/
theorem lookup_none_of_not_mem_keys (k : String) :
    ∀ l : SessionMap, k ∉ l.map Prod.fst → l.lookup k = none := by
  intro l
  induction l with
  | nil => intro _; rfl
  | cons a t ih =>
    intro hk
    obtain ⟨k', v⟩ := a
    simp only [List.map_cons, List.mem_cons, not_or] at hk
    have hne : (k == k') = false := by
      simpa using hk.1
    simp [List.lookup_cons, hne, ih hk.2]

/-- Erasing the entry for a key from an association list with pairwise
distinct keys leaves no lookup result for that key. -/
theorem lookup_eraseP_self (k : String) :
    ∀ l : SessionMap, (l.map Prod.fst).Nodup →
      (l.eraseP (fun p => p.1 == k)).lookup k = none := by
  intro l
  induction l with
  | nil => intro _; rfl
  | cons a t ih =>
    intro hnd
    obtain ⟨k', v⟩ := a
    simp only [List.map_cons, List.nodup_cons] at hnd
    by_cases hkk : k' = k
    · subst hkk
      rw [List.eraseP_cons]
      have hb : ((k', v).1 == k') = true := by simp
      rw [hb]
      simp only [cond_true]
      exact lookup_none_of_not_mem_keys k' t hnd.1
    · have hb : ((k', v).1 == k) = false := by simpa using hkk
      rw [List.eraseP_cons, hb]
      simp only [cond_false]
      have hb2 : (k == k') = false := by
        simpa using fun h => hkk h.symm
      simp [List.lookup_cons, hb2, ih hnd.2]

/-- C10: whatever the outcome of the remote backend delete call,
`removeSession` resolves without error whenever a session is tracked for the
task id, and afterwards `getSession` and `hasSession` report no session; it
rejects — with the not-found error, reaching no mutation of the map — exactly
when no session is tracked. -/
theorem remove_session_swallows_backend_failure (deleteOk : Bool)
    (sessions : SessionMap) (taskId : String) :
    ((sessions.map Prod.fst).Nodup → hasSession sessions taskId = true →
      ∃ m, removeSession deleteOk sessions taskId = .ok (m, true) ∧
        getSession m taskId = none ∧ hasSession m taskId = false) ∧
    (hasSession sessions taskId = false →
      removeSession deleteOk sessions taskId =
        .error ("Session for task " ++ taskId ++ " not found")) := by
  constructor
  · intro hnd hhas
    unfold hasSession at hhas
    obtain ⟨v, hv⟩ := Option.isSome_iff_exists.mp hhas
    refine ⟨sessions.eraseP (fun p => p.1 == taskId), ?_, ?_, ?_⟩
    · unfold removeSession
      rw [hv]
    · exact lookup_eraseP_self taskId sessions hnd
    · unfold hasSession
      rw [lookup_eraseP_self taskId sessions hnd]
      rfl
  · intro hno
    unfold hasSession at hno
    have hnone : sessions.lookup taskId = none := by
      cases h : sessions.lookup taskId
      · rfl
      · rw [h] at hno; simp at hno
    unfold removeSession
    rw [hnone]

/-- C10 witness: the theorem applied with a failing backend delete to a map
tracking one session, removed by its task id, and queried for a missing
task id. -/
theorem remove_session_swallows_backend_failure_witness :
    (∃ m, removeSession false [("t1", ⟨"s1", "/w/t1", .running⟩)] "t1" =
        .ok (m, true) ∧
      getSession m "t1" = none ∧ hasSession m "t1" = false) ∧
    removeSession false [("t1", ⟨"s1", "/w/t1", .running⟩)] "t2" =
      .error ("Session for task " ++ "t2" ++ " not found") :=
  ⟨(remove_session_swallows_backend_failure false
      [("t1", ⟨"s1", "/w/t1", .running⟩)] "t1").1 (by simp) (by decide),
   (remove_session_swallows_backend_failure false
      [("t1", ⟨"s1", "/w/t1", .running⟩)] "t2").2 (by decide)⟩

/-! ## Theorems: orchestrator reconciliation (modelled from the spec) -/

/-- Appending the newly registered agent of a task with no existing agent
preserves the at-most-one-agent-per-task property. -/
theorem atMostOne_append_new (agents : List RunningAgent) (dir tid : String)
    (hinv : AtMostOnePerTask agents)
    (habs : agents.any (fun a => a.taskId == tid) = false) :
    AtMostOnePerTask (agents ++ [mkRunningAgent dir tid]) := by
  intro tid'
  rw [List.countP_append]
  by_cases htid : tid = tid'
  · subst htid
    have hz : agents.countP (fun a => a.taskId == tid) = 0 := by
      rw [List.countP_eq_zero]
      intro a ha hpa
      have hany : agents.any (fun a => a.taskId == tid) = true :=
        List.any_eq_true.mpr ⟨a, ha, hpa⟩
      rw [habs] at hany
      exact Bool.false_ne_true hany
    rw [hz]
    simp [mkRunningAgent]
  · have h1 : (List.countP (fun a => a.taskId == tid') [mkRunningAgent dir tid]) = 0 := by
      simp [mkRunningAgent, List.countP_cons, htid]
    rw [h1]
    simpa using hinv tid'

/-- The start phase of a reconciliation pass preserves the
at-most-one-agent-per-task property: a start is only issued for tasks with no
current agent. -/
theorem startAgents_inv (dir : String) (ok : String → Bool) :
    ∀ (S : List OTask) (agents : List RunningAgent),
      AtMostOnePerTask agents → AtMostOnePerTask (startAgents dir ok agents S) := by
  intro S
  induction S with
  | nil => intro agents h; exact h
  | cons t ts ih =>
    intro agents hinv
    rw [startAgents]
    by_cases h : agents.any (fun a => a.taskId == t.id) = true
    · rw [if_pos h]
      exact ih agents hinv
    · rw [if_neg h]
      by_cases hok : ok t.id = true
      · rw [if_pos hok]
        exact ih _ (atMostOne_append_new agents dir t.id hinv (by
          cases hb : agents.any (fun a => a.taskId == t.id)
          · rfl
          · exact absurd hb h))
      · rw [if_neg hok]
        exact ih agents hinv

/-- Filtering a RunningAgent list never increases a per-task count. -/
theorem countP_filter_le (p q : RunningAgent → Bool) (l : List RunningAgent) :
    (l.filter q).countP p ≤ l.countP p := by
  rw [List.countP_filter]
  exact List.countP_mono_left (fun x _ h => by
    rw [Bool.and_eq_true] at h
    exact h.1)

/-- C1: the orchestrator starts from an empty RunningAgent set, which
satisfies the at-most-one-agent-per-task property, and every reconciliation
pass — whatever the snapshot, including one naming the same task twice, and
whatever the start and stop outcomes — preserves it, so at every point each
task id has 0 or 1 RunningAgent entries. -/
theorem orchestrator_at_most_one_agent_per_task :
    AtMostOnePerTask ([] : List RunningAgent) ∧
    ∀ (dir : String) (startOk stopOk : String → Bool)
      (agents : List RunningAgent) (snapshot : List OTask),
      AtMostOnePerTask agents →
      AtMostOnePerTask (reconcile dir startOk stopOk agents snapshot).1 := by
  constructor
  · intro tid
    simp [AtMostOnePerTask]
  · intro dir startOk stopOk agents snapshot hinv tid
    have h1 := startAgents_inv dir startOk snapshot agents hinv tid
    exact le_trans
      (countP_filter_le (fun a => a.taskId == tid)
        (fun a => snapshot.any fun t => t.id == a.taskId)
        (startAgents dir startOk agents snapshot)) h1

/-- C1 witness: one reconciliation pass from the empty agent set over a
snapshot naming the same open task twice yields an agent set satisfying the
at-most-one property. -/
theorem orchestrator_at_most_one_agent_per_task_witness :
    AtMostOnePerTask
      ((reconcile "/w" oracleTrue oracleTrue [] [task1, task1]).1) :=
  orchestrator_at_most_one_agent_per_task.2 "/w" oracleTrue oracleTrue []
    [task1, task1] (by intro tid; simp [AtMostOnePerTask])

/-- Any agent set reached by adding agents in the start phase keeps satisfying
a predicate already satisfied and propagated to the added agents. -/
theorem startAgents_any_mono (dir : String) (ok : String → Bool)
    (p : RunningAgent → Bool) :
    ∀ (S : List OTask) (agents : List RunningAgent),
      agents.any p = true → (startAgents dir ok agents S).any p = true := by
  intro S
  induction S with
  | nil => intro agents h; exact h
  | cons t ts ih =>
    intro agents h
    rw [startAgents]
    by_cases hp : agents.any (fun a => a.taskId == t.id) = true
    · rw [if_pos hp]; exact ih agents h
    · rw [if_neg hp]
      by_cases hok : ok t.id = true
      · rw [if_pos hok]
        exact ih _ (by rw [List.any_append, h]; rfl)
      · rw [if_neg hok]; exact ih agents h

/-- When every start succeeds, every snapshot task has an agent after the
start phase. -/
theorem startAgents_covers (dir : String) (ok : String → Bool) :
    ∀ (S : List OTask) (agents : List RunningAgent),
      (∀ t ∈ S, ok t.id = true) →
      ∀ t ∈ S,
        (startAgents dir ok agents S).any (fun a => a.taskId == t.id) = true := by
  intro S
  induction S with
  | nil => intro agents _ t ht; exact absurd ht (List.not_mem_nil t)
  | cons u ts ih =>
    intro agents hok t ht
    rw [startAgents]
    by_cases hp : agents.any (fun a => a.taskId == u.id) = true
    · rw [if_pos hp]
      rcases List.mem_cons.mp ht with h | h
      · subst h
        exact startAgents_any_mono dir ok _ ts agents hp
      · exact ih agents (fun t' ht' => hok t' (List.mem_cons_of_mem u ht')) t h
    · rw [if_neg hp]
      have hoku : ok u.id = true := hok u (List.mem_cons_self u ts)
      rw [if_pos hoku]
      rcases List.mem_cons.mp ht with h | h
      · subst h
        refine startAgents_any_mono dir ok _ ts _ ?_
        rw [List.any_append]
        have hone : (List.any [mkRunningAgent dir t.id]
            fun a => a.taskId == t.id) = true := by
          simp [mkRunningAgent]
        rw [hone, Bool.or_true]
      · exact ih _ (fun t' ht' => hok t' (List.mem_cons_of_mem u ht')) t h

/-- Agents produced by the start phase have task ids satisfying any predicate
that holds for the incoming agents and for every snapshot task. -/
theorem startAgents_ids (dir : String) (ok : String → Bool) (Q : String → Bool) :
    ∀ (S : List OTask) (agents : List RunningAgent),
      (∀ a ∈ agents, Q a.taskId = true) → (∀ t ∈ S, Q t.id = true) →
      ∀ a ∈ startAgents dir ok agents S, Q a.taskId = true := by
  intro S
  induction S with
  | nil => intro agents ha _ a haa; exact ha a haa
  | cons u ts ih =>
    intro agents ha hS a haa
    rw [startAgents] at haa
    by_cases hp : agents.any (fun a => a.taskId == u.id) = true
    · rw [if_pos hp] at haa
      exact ih agents ha (fun t ht => hS t (List.mem_cons_of_mem u ht)) a haa
    · rw [if_neg hp] at haa
      by_cases hok : ok u.id = true
      · rw [if_pos hok] at haa
        refine ih _ ?_ (fun t ht => hS t (List.mem_cons_of_mem u ht)) a haa
        intro b hb
        rcases List.mem_append.mp hb with h | h
        · exact ha b h
        · rcases List.mem_singleton.mp h with rfl
          exact hS u (List.mem_cons_self u ts)
      · rw [if_neg hok] at haa
        exact ih agents ha (fun t ht => hS t (List.mem_cons_of_mem u ht)) a haa

/-- When every snapshot task already has an agent, the start phase changes
nothing and issues no start calls. -/
theorem startPass_noop (dir : String) (ok : String → Bool) :
    ∀ (S : List OTask) (agents : List RunningAgent),
      (∀ t ∈ S, agents.any (fun a => a.taskId == t.id) = true) →
      startAgents dir ok agents S = agents ∧
        startCallsOf dir ok agents S = [] := by
  intro S
  induction S with
  | nil => intro agents _; exact ⟨rfl, rfl⟩
  | cons u ts ih =>
    intro agents h
    have hu := h u (List.mem_cons_self u ts)
    rw [startAgents, startCallsOf, if_pos hu, if_pos hu]
    exact ih agents (fun t ht => h t (List.mem_cons_of_mem u ht))

/-- C2 counterexample: when the single start of the first pass fails, the
task is left unagented and — per the spec's own retry rule — reconciling the
identical snapshot again issues a second start call, so the second pass is not
free of start calls. -/
theorem reconcile_repeat_not_callfree_cex :
    (reconcile "/w" oracleFalse oracleTrue
      (reconcile "/w" oracleFalse oracleTrue [] [task1]).1 [task1]).2.1 =
      ["t1"] ∧
    (reconcile "/w" oracleFalse oracleTrue
      (reconcile "/w" oracleFalse oracleTrue [] [task1]).1 [task1]).2.1 ≠ [] := by
  constructor
  · rfl
  · decide

/-- C2 (amended): re-reconciling an identical snapshot issues no stop calls,
whatever happened before; and when every start of the first pass succeeded,
the second pass also issues no start calls and leaves the RunningAgent set
unchanged. -/
theorem reconcile_idempotent_after_successful_pass (dir : String)
    (so so2 sk sk2 : String → Bool) (agents : List RunningAgent)
    (S : List OTask) :
    (reconcile dir so2 sk2 (reconcile dir so sk agents S).1 S).2.2 = [] ∧
    ((∀ t ∈ S, so t.id = true) →
      (reconcile dir so2 sk2 (reconcile dir so sk agents S).1 S).2.1 = [] ∧
      (reconcile dir so2 sk2 (reconcile dir so sk agents S).1 S).1 =
        (reconcile dir so sk agents S).1) := by
  have hag1 : (reconcile dir so sk agents S).1 =
      stopAgents S (startAgents dir so agents S) := rfl
  have factA : ∀ a ∈ (reconcile dir so sk agents S).1,
      (S.any fun t => t.id == a.taskId) = true := by
    intro a ha
    rw [hag1] at ha
    exact (List.mem_filter.mp ha).2
  constructor
  · show stopCallsOf S (startAgents dir so2 (reconcile dir so sk agents S).1 S) = []
    unfold stopCallsOf
    rw [List.filter_eq_nil_iff.mpr, List.map_nil]
    intro a ha
    have hq : (S.any fun t => t.id == a.taskId) = true := by
      refine startAgents_ids dir so2 (fun tid => S.any fun t => t.id == tid) S
        (reconcile dir so sk agents S).1 factA ?_ a ha
      intro t ht
      exact List.any_eq_true.mpr ⟨t, ht, by simp⟩
    rw [hq]
    simp
  · intro hok
    have hpres : ∀ t ∈ S,
        ((reconcile dir so sk agents S).1.any fun a => a.taskId == t.id) = true := by
      intro t ht
      have h1 := startAgents_covers dir so S agents hok t ht
      obtain ⟨b, hb, hbt⟩ := List.any_eq_true.mp h1
      refine List.any_eq_true.mpr ⟨b, ?_, hbt⟩
      rw [hag1]
      refine List.mem_filter.mpr ⟨hb, ?_⟩
      have hid : b.taskId = t.id := by simpa using hbt
      exact List.any_eq_true.mpr ⟨t, ht, by simp [hid]⟩
    obtain ⟨hsa, hsc⟩ :=
      startPass_noop dir so2 S (reconcile dir so sk agents S).1 hpres
    constructor
    · exact hsc
    · show stopAgents S (startAgents dir so2 (reconcile dir so sk agents S).1 S) =
        (reconcile dir so sk agents S).1
      rw [hsa]
      unfold stopAgents
      exact List.filter_eq_self.mpr factA

/-- C2 witness: the amended theorem applied to the sample task with every
start succeeding — the second pass of an identical snapshot issues no calls
and leaves the agent set unchanged. -/
theorem reconcile_idempotent_after_successful_pass_witness :
    (reconcile "/w" oracleTrue oracleTrue
      (reconcile "/w" oracleTrue oracleTrue [] [task1]).1 [task1]).2.2 = [] ∧
    ((reconcile "/w" oracleTrue oracleTrue
        (reconcile "/w" oracleTrue oracleTrue [] [task1]).1 [task1]).2.1 = [] ∧
      (reconcile "/w" oracleTrue oracleTrue
        (reconcile "/w" oracleTrue oracleTrue [] [task1]).1 [task1]).1 =
        (reconcile "/w" oracleTrue oracleTrue [] [task1]).1) :=
  ⟨(reconcile_idempotent_after_successful_pass "/w" oracleTrue oracleTrue
      oracleTrue oracleTrue [] [task1]).1,
   (reconcile_idempotent_after_successful_pass "/w" oracleTrue oracleTrue
      oracleTrue oracleTrue [] [task1]).2 (by intro t _; rfl)⟩
